import Mathlib

/-!
Verification development for the AMM swap-interface template
(`src/components/SimpleSwapInterface.tsx`).

The component's amount-reconciliation logic, quote fetching, balance
fetching, approval flow and receipt polling are embedded shallowly:

* numeric display values are rationals (`ℚ`); a displayed amount string is
  `Option ℚ` (`none` = empty input field); comparisons of displayed strings
  are modelled as comparisons of their values (the formatter's output is
  canonical);
* JS truthiness of an optional price (`fromToken?.usdPrice`) is
  "present and nonzero";
* network calls are parameters: a response value (`Except`) or an oracle
  function for polling;
* React's batched update-then-effect cycle is modelled as function
  composition: an event handler produces the committed state, and the
  reactive `useEffect` bodies run on that committed state.

Floating-point rounding of JS `number` is not modelled; arithmetic is
exact over `ℚ`.
-/

/-- Display mode of one side of the swap form: token units or USD. -/
inductive Mode
  | token
  | usd
deriving DecidableEq, Repr

/-- Which side of the form the user last typed in (`lastEditedField`). -/
inductive Side
  | fromS
  | toS
deriving DecidableEq, Repr

/-- Notification severity, as in `showNotification`. -/
inductive NotifType
  | success
  | error
  | info
deriving DecidableEq, Repr

/-- A user-facing notification: severity plus the headline message used to
identify which branch of the error classification produced it. -/
structure Notif where
  type : NotifType
  message : String
deriving DecidableEq, Repr

/-- Embedding of `formatSignificantFigures(num, sigFigs)`: the numeric value
of the formatted string.  The source computes
`magnitude = floor(log10(|num|))`, `factor = 10^(sigFigs-1-magnitude)` and
returns `round(num*factor)/factor` (JS `Math.round` is `⌊x + 1/2⌋`, the same
as Mathlib's `round`); `Int.log 10 |num|` is exactly `⌊log10 |num|⌋`. -/
def formatSignificantFigures (num : ℚ) (sigFigs : ℕ) : ℚ :=
  if num = 0 then 0
  else
    ((round (num * (10 : ℚ) ^ ((sigFigs : ℤ) - 1 - Int.log 10 |num|)) : ℤ) : ℚ) /
      (10 : ℚ) ^ ((sigFigs : ℤ) - 1 - Int.log 10 |num|)

/-- The component always formats displayed amounts to 4 significant figures. -/
def round4sig (x : ℚ) : ℚ := formatSignificantFigures x 4

/-- Amount-reconciliation state of the component: the two displayed amounts,
the two display modes, the two selected tokens' USD unit prices
(`fromToken?.usdPrice` / `toToken?.usdPrice`, `none` = token absent or price
not loaded) and the `lastEditedField` marker. -/
structure SwapState where
  fromAmount : Option ℚ
  toAmount : Option ℚ
  fromMode : Mode
  toMode : Mode
  fromPrice : Option ℚ
  toPrice : Option ℚ
  lastEditedField : Side
deriving DecidableEq, Repr

/-- Flip a display mode, as `fromMode === 'token' ? 'usd' : 'token'`. -/
def flipMode : Mode → Mode
  | Mode.token => Mode.usd
  | Mode.usd => Mode.token

/-- Embedding of the from-side mode-toggle `onClick` handler: it sets the new
mode and, when the displayed amount is non-empty and the token has a truthy
USD price, converts the displayed value inline (token→USD multiplies by the
price, USD→token divides), formatted to 4 significant figures.  It does not
touch `lastEditedField`. -/
def toggleFromMode (s : SwapState) : SwapState :=
  let newMode := flipMode s.fromMode
  let s1 := { s with fromMode := newMode }
  match s.fromAmount, s.fromPrice with
  | some a, some p =>
    if p ≠ 0 then
      if newMode = Mode.usd then { s1 with fromAmount := some (round4sig (a * p)) }
      else { s1 with fromAmount := some (round4sig (a / p)) }
    else s1
  | _, _ => s1

/-- Embedding of the from-side mode-reactive `useEffect` body (deps
`[fromMode, fromToken?.usdPrice]`): skipped when the amount is empty, the
price is not truthy, or `lastEditedField === 'from'`; otherwise it converts
the displayed value to token units under the current mode, re-renders it in
the current mode, and stores it only if the re-rendered string differs. -/
def fromModeConvEffect (s : SwapState) : SwapState :=
  match s.fromAmount, s.fromPrice with
  | some a, some p =>
    if p = 0 then s
    else if s.lastEditedField = Side.fromS then s
    else
      let cur := if s.fromMode = Mode.usd then a / p else a
      let newDisp := if s.fromMode = Mode.usd then round4sig (cur * p) else round4sig cur
      if newDisp ≠ a then { s with fromAmount := some newDisp } else s
  | _, _ => s

/-- Guard of the from-side mode-reactive effect: true exactly when the effect
body reaches its conversion code (amount non-empty, price truthy, and
`lastEditedField ≠ 'from'`). -/
def fromModeEffectFires (s : SwapState) : Bool :=
  match s.fromAmount, s.fromPrice with
  | some _, some p => decide (p ≠ 0) && decide (s.lastEditedField ≠ Side.fromS)
  | _, _ => false

/-- Quote response body as consumed by `fetchQuote`: the output amount (the
value of `output_formatted`/`output` when truthy, else `none`) and the
optional `price_impact` field. -/
structure QuoteData where
  output : Option ℚ
  priceImpact : Option ℚ
deriving DecidableEq, Repr

/-- The USD→token conversion inside `fetchQuote` (lines 442-447).  Inside
`fetchQuote` the names `fromToken`/`toToken` are the function's PARAMETERS,
which shadow the component state, while `fromMode`/`toMode` still come from
the component state; `fromPrice`/`toPrice` here are those parameter tokens'
`usdPrice` fields.  The division is applied only when the edited side's
state mode is `usd` and the corresponding parameter token's price is truthy;
otherwise the amount is passed through unchanged. -/
def convertEditedAmount (s : SwapState) (fromPrice toPrice : Option ℚ) (a : ℚ)
    (isFromAmount : Bool) : ℚ :=
  if isFromAmount then
    match fromPrice with
    | some p => if s.fromMode = Mode.usd ∧ p ≠ 0 then a / p else a
    | none => a
  else
    match toPrice with
    | some p => if s.toMode = Mode.usd ∧ p ≠ 0 then a / p else a
    | none => a

/-- The rendering idiom `mode === 'usd' && price ? round4(o*price) :
round4(o)` used by `fetchQuote`'s success branch: the mode is a state mode,
the price a parameter token's price. -/
def quoteDisplay (mode : Mode) (price : Option ℚ) (o : ℚ) : ℚ :=
  match price with
  | some p => if mode = Mode.usd ∧ p ≠ 0 then round4sig (o * p) else round4sig o
  | none => round4sig o

/-- State update performed by `fetchQuote` on a successful response (lines
499-511): writes the rendered output amount to the side opposite the
request's edited side, using that side's STATE mode but the PARAMETER
token's price (`toToken.usdPrice` for the to side, `fromToken.usdPrice` for
the from side — which at the swapped to-side call sites is not that side's
own token).  No other amount field is touched and `lastEditedField` is not
consulted. -/
def applyQuoteSuccess (s : SwapState) (fromPrice toPrice : Option ℚ) (isFromAmount : Bool)
    (o : ℚ) : SwapState :=
  if isFromAmount then { s with toAmount := some (quoteDisplay s.toMode toPrice o) }
  else { s with fromAmount := some (quoteDisplay s.fromMode fromPrice o) }

/-- Character-list version of JS `String.prototype.includes`: does the
pattern occur as a contiguous block? -/
def startsWithChars : List Char → List Char → Bool
  | [], _ => true
  | _ :: _, [] => false
  | p :: ps, c :: cs => p == c && startsWithChars ps cs

/-- Substring occurrence over character lists. -/
def subChars : List Char → List Char → Bool
  | [], _ => true
  | _ :: _, [] => false
  | p, c :: cs => startsWithChars p (c :: cs) || subChars p cs

/-- JS `message.includes(pattern)`. -/
def strContains (s pat : String) : Bool := subChars pat.toList s.toList

/-- The `catch` branch of `fetchQuote`: classify the error message into the
three user-facing quote-failure notifications. -/
def classifyQuoteError (msg : String) : String :=
  if strContains msg "insufficient liquidity" then "Insufficient Liquidity"
  else if strContains msg "network" then "Network Error"
  else "Quote Failed"

/-- Result of one `fetchQuote` invocation: the state after it settles,
whether a network request was issued, the token-unit amount sent with the
request, and the notifications raised. -/
structure FetchOut where
  state : SwapState
  requestIssued : Bool
  requestAmount : Option ℚ
  notifs : List Notif
deriving DecidableEq, Repr

/-- Embedding of `fetchQuote(fromToken, toToken, amount, isFromAmount)`.
`fromPrice`/`toPrice` are the `usdPrice` fields of the `fromToken`/`toToken`
PARAMETERS (which shadow the component state; every `isFromAmount=false`
call site passes them swapped — see `fetchQuoteTo`); `amount` is the edited
side's displayed value (`none` = empty string); `resp` is the quote
service's answer (`.error msg` covers a non-ok HTTP status or a thrown
error with that message).  Mirrors the source: the guard returns early on
an empty or non-positive amount; the USD→token conversion divides by the
corresponding parameter token's price only when it is truthy; on success
the opposite side is overwritten unconditionally; on failure a classified
error notification is raised and no amount field is written. -/
def fetchQuote (s : SwapState) (fromPrice toPrice : Option ℚ) (amount : Option ℚ)
    (isFromAmount : Bool) (resp : Except String QuoteData) : FetchOut :=
  match amount with
  | none => ⟨s, false, none, []⟩
  | some a =>
    if a ≤ 0 then ⟨s, false, none, []⟩
    else
      match resp with
      | Except.error msg =>
        ⟨s, true, some (convertEditedAmount s fromPrice toPrice a isFromAmount),
          [⟨NotifType.error, classifyQuoteError msg⟩]⟩
      | Except.ok qd =>
        match qd.output with
        | none => ⟨s, true, some (convertEditedAmount s fromPrice toPrice a isFromAmount), []⟩
        | some o =>
          ⟨applyQuoteSuccess s fromPrice toPrice isFromAmount o, true,
            some (convertEditedAmount s fromPrice toPrice a isFromAmount), []⟩

/-- The from-side call sites (lines 553, 578, 1724):
`fetchQuote(fromToken, toToken, fromAmount, true)` — parameters aligned
with the state. -/
def fetchQuoteFrom (s : SwapState) (resp : Except String QuoteData) : FetchOut :=
  fetchQuote s s.fromPrice s.toPrice s.fromAmount true resp

/-- The to-side call sites (lines 563, 580, 1726):
`fetchQuote(toToken, fromToken, toAmount, false)` — the token arguments are
SWAPPED, so inside `fetchQuote` the `toToken` parameter is the state's
fromToken and vice versa, while the state modes are read unswapped. -/
def fetchQuoteTo (s : SwapState) (resp : Except String QuoteData) : FetchOut :=
  fetchQuote s s.toPrice s.fromPrice s.toAmount false resp

/-- One state-change of the debounced from-side quote effect's dependencies:
the time of the change and the new `fromAmount` (`none` = emptied field or a
change that fails the effect's guard). -/
structure Edit where
  time : ℕ
  value : Option ℚ
deriving DecidableEq, Repr

/-- Fires of the debounced quote effect over a time-ordered list of edits,
with the source's fixed 200 time-unit delay passed as `delay`.  On each edit
React runs the previous effect's cleanup (`clearTimeout`), cancelling a
pending timer that has not yet fired; a timer scheduled at time `t` fires
(with the value captured at scheduling) only if no further edit happens
before `t + delay`.  Returns the list of (fire time, requested value). -/
def debounceFires (delay : ℕ) : List Edit → List (ℕ × ℚ)
  | [] => []
  | e :: rest =>
    let tail := debounceFires delay rest
    match e.value, rest with
    | none, _ => tail
    | some v, [] => [(e.time + delay, v)]
    | some v, e2 :: _ => if e.time + delay ≤ e2.time then (e.time + delay, v) :: tail else tail

/-- Every edit in the list happens strictly before the previous edit's
debounce delay elapses. -/
def closeChain (delay : ℕ) : List Edit → Prop
  | [] => True
  | [_] => True
  | e :: e2 :: rest => e2.time < e.time + delay ∧ closeChain delay (e2 :: rest)

/-- Canonical token record produced by `getWalletBalances` (the `Token`
interface with the balance kept as its formatted string). -/
structure BalToken where
  address : String
  symbol : String
  name : String
  decimals : ℕ
  balance : String
deriving DecidableEq, Repr

/-- Raw token object from the balance service, with every field optional:
each pair of alternatives mirrors the `||` fallback chain in the source. -/
structure RawToken where
  address : Option String
  token_address : Option String
  symbol : Option String
  token_symbol : Option String
  name : Option String
  token_name : Option String
  decimals : Option ℕ
  token_decimals : Option ℕ
  balance : Option String
  amount : Option String
  value : Option String
  formatted_balance : Option String
deriving DecidableEq, Repr

/-- First truthy string of a JS `a || b || ... || dflt` chain (absent and
empty strings are falsy). -/
def firstTruthyStr : List (Option String) → String → String
  | [], dflt => dflt
  | none :: rest, dflt => firstTruthyStr rest dflt
  | some s :: rest, dflt => if s = "" then firstTruthyStr rest dflt else s

/-- First truthy numeric field of a JS `a || b || ... || dflt` chain (absent
and `0` are falsy). -/
def firstTruthyNat : List (Option ℕ) → ℕ → ℕ
  | [], dflt => dflt
  | none :: rest, dflt => firstTruthyNat rest dflt
  | some n :: rest, dflt => if n = 0 then firstTruthyNat rest dflt else n

/-- The per-token normalization inside `getWalletBalances`'s `tokens.map`. -/
def normalizeToken (t : RawToken) : BalToken :=
  { address := firstTruthyStr [t.address, t.token_address] ""
    symbol := firstTruthyStr [t.symbol, t.token_symbol] ""
    name := firstTruthyStr [t.name, t.token_name] ""
    decimals := firstTruthyNat [t.decimals, t.token_decimals] 18
    balance := firstTruthyStr [t.balance, t.amount, t.value, t.formatted_balance] "0" }

/-- The hard-coded default token list `getWalletBalances` falls back to. -/
def defaultTokens : List BalToken :=
  [⟨"0x0000000000000000000000000000000000000000", "MON", "Monad", 18, "0"⟩,
   ⟨"0xf817257fed379853cDe0fa4F97AB987181B1E5Ea", "USDC", "USD Coin", 6, "0"⟩]

/-- The tolerated response shapes of the balance service: a bare array or an
object with a `results`/`balances`/`tokens` array; anything else yields an
empty token list. -/
inductive BalShape
  | arr (tokens : List RawToken)
  | results (tokens : List RawToken)
  | balances (tokens : List RawToken)
  | tokensField (tokens : List RawToken)
  | other
deriving Repr

/-- Token list extracted from a tolerated response shape. -/
def shapeTokens : BalShape → List RawToken
  | BalShape.arr ts => ts
  | BalShape.results ts => ts
  | BalShape.balances ts => ts
  | BalShape.tokensField ts => ts
  | BalShape.other => []

/-- Combined upstream outcome for one `getWalletBalances` call:
both endpoints returned a non-ok status, an exception was thrown somewhere
in the body, or a parsed response of some shape was obtained. -/
inductive BalUpstream
  | httpFail
  | exn
  | ok (shape : BalShape)
deriving Repr

/-- Embedding of `getWalletBalances(walletAddress)`.  With a fresh cache
entry it is returned directly; otherwise: both endpoints failing returns an
empty list, a thrown exception returns the two hard-coded default tokens,
and a parsed response is normalized (an empty result also falls back to the
defaults).  The function raises no notification on any path and always
returns (never throws). -/
def getWalletBalances (cached : Option (List BalToken)) (up : BalUpstream) :
    List BalToken × List Notif :=
  match cached with
  | some bs => (bs, [])
  | none =>
    match up with
    | BalUpstream.httpFail => ([], [])
    | BalUpstream.exn => (defaultTokens, [])
    | BalUpstream.ok shape =>
      let mapped := (shapeTokens shape).map normalizeToken
      if mapped = [] then (defaultTokens, []) else (mapped, [])

/-- Transaction receipt as consulted by the polling loops (only the `status`
field is read; `""` stands for a falsy/absent status). -/
structure Receipt where
  status : String
deriving DecidableEq, Repr

/-- The polling loop `while (!receipt && attempts < 30)`: starting from
`attempts` polls already made and `fuel = 30 - attempts` iterations left,
returns the first receipt obtained (if any) and the total number of polls
made.  `oracle n` is the result of `eth_getTransactionReceipt` on poll `n`. -/
def pollFrom (oracle : ℕ → Option Receipt) (attempts : ℕ) : ℕ → Option Receipt × ℕ
  | 0 => (none, attempts)
  | fuel + 1 =>
    match oracle attempts with
    | some r => (some r, attempts + 1)
    | none => pollFrom oracle (attempts + 1) fuel

/-- Receipt polling after a submitted transaction: at most 30 attempts, one
per fixed 1-second interval. -/
def pollReceipt (oracle : ℕ → Option Receipt) : Option Receipt × ℕ :=
  pollFrom oracle 0 30

/-- Terminal outcome of the submission flow. -/
inductive SwapOutcome
  | success
  | failed (reason : String)
deriving DecidableEq, Repr

/-- The check after the polling loop in `executeSwap`:
`receipt && receipt.status === '0x1'` is success; otherwise the flow throws
`Transaction failed - Status: ${receipt?.status || 'unknown'}`, a terminal
failure. -/
def receiptOutcome : Option Receipt → SwapOutcome
  | some r =>
    if r.status = "0x1" then SwapOutcome.success
    else
      SwapOutcome.failed
        ("Transaction failed - Status: " ++ (if r.status = "" then "unknown" else r.status))
  | none => SwapOutcome.failed ("Transaction failed - Status: " ++ "unknown")

/-- An ERC-20 `approve` call as encoded by `approveToken`: the function
selector, the spender, and the numeric value of the encoded amount word
(`parseFloat(amount) * 10^decimals`, hex-encoded in the source; the encoding
is value-faithful so the word is modelled by its value). -/
structure ApproveCall where
  selector : String
  spender : String
  rawAmount : ℚ
deriving DecidableEq, Repr

/-- Result of one `approveToken` invocation: the approve transactions
issued, whether the swap submission was auto-resumed (`executeSwap()` called
from the success branch), and the notifications raised. -/
structure ApproveOut where
  calls : List ApproveCall
  resumedSwap : Bool
  notifs : List Notif
deriving DecidableEq, Repr

/-- The `catch` branch of `approveToken`: classify the failure message. -/
def classifyApprovalError (msg : String) : String :=
  if strContains msg "user rejected" then "Approval Cancelled"
  else if strContains msg "insufficient funds" then "Insufficient Gas"
  else "Approval Failed"

/-- Embedding of `approveToken(tokenAddress, spender, amount)`.  `send` is
the outcome of the `eth_sendTransaction` request (`.error msg` = rejected or
failed before submission, so no approve transaction exists); `oracle` feeds
the 30-attempt receipt polling loop.  On a confirmed (`status === '0x1'`)
receipt the success branch calls `executeSwap()` (auto-resume); any other
polling result throws `Approval transaction failed`, which the catch block
reports without resuming. -/
def approveToken (spender : String) (amount : ℚ) (decimals : ℕ)
    (send : Except String String) (oracle : ℕ → Option Receipt) : ApproveOut :=
  match send with
  | Except.error msg =>
    ⟨[], false,
      [⟨NotifType.info, "Approving token spending..."⟩,
       ⟨NotifType.error, classifyApprovalError msg⟩]⟩
  | Except.ok _tx =>
    let call : ApproveCall := ⟨"0x095ea7b3", spender, amount * (10 : ℚ) ^ decimals⟩
    let submitted : List Notif :=
      [⟨NotifType.info, "Approving token spending..."⟩,
       ⟨NotifType.info, "Approval transaction submitted. Waiting for confirmation..."⟩]
    match (pollReceipt oracle).1 with
    | some r =>
      if r.status = "0x1" then
        ⟨[call], true, submitted ++ [⟨NotifType.success, "Token approval confirmed! Executing swap..."⟩]⟩
      else
        ⟨[call], false,
          submitted ++ [⟨NotifType.error, classifyApprovalError "Approval transaction failed"⟩]⟩
    | none =>
      ⟨[call], false,
        submitted ++ [⟨NotifType.error, classifyApprovalError "Approval transaction failed"⟩]⟩

/-- Embedding of `checkApproval(tokenAddress, spender, amount)`.
`allowanceResp` is the `eth_call` allowance read (`.error` = provider
failure or malformed response, i.e. any thrown exception).  The source
compares `parseInt(allowanceHex, 16) >= parseFloat(amount) * 10^decimals`
and the catch block returns `false`. -/
def checkApproval (allowanceResp : Except String ℕ) (amount : ℚ) (decimals : ℕ) : Bool :=
  match allowanceResp with
  | Except.error _ => false
  | Except.ok allowance => decide (amount * (10 : ℚ) ^ decimals ≤ (allowance : ℚ))

/-- Which path `executeSwap` takes after obtaining the swap quote. -/
inductive SwapPath
  | approvalPath
  | directSwap
deriving DecidableEq, Repr

/-- The approval routing in `executeSwap`: native tokens skip the check
entirely; an ERC-20 input whose `checkApproval` returns `false` enters the
approval path (`approveToken` then early return — no swap transaction is
submitted in this invocation). -/
def executeSwapRouting (isNative : Bool) (hasApproval : Bool) : SwapPath :=
  if isNative then SwapPath.directSwap
  else if hasApproval then SwapPath.directSwap
  else SwapPath.approvalPath

/-! ### Arithmetic facts about the 4-significant-figure formatter -/

theorem round4sig_zero : round4sig 0 = 0 := by
  simp [round4sig, formatSignificantFigures]

theorem round4sig_of_ne (x : ℚ) (hx : x ≠ 0) :
    round4sig x =
      ((round (x * (10 : ℚ) ^ ((3 : ℤ) - Int.log 10 |x|)) : ℤ) : ℚ) /
        (10 : ℚ) ^ ((3 : ℤ) - Int.log 10 |x|) := by
  have h : ((4 : ℕ) : ℤ) - 1 - Int.log 10 |x| = (3 : ℤ) - Int.log 10 |x| := by norm_num
  rw [round4sig, formatSignificantFigures, if_neg hx, h]

theorem log10_eq {q : ℚ} {z : ℤ} (hq : 0 < q) (h1 : (10 : ℚ) ^ z ≤ q)
    (h2 : q < (10 : ℚ) ^ (z + 1)) : Int.log 10 q = z := by
  refine le_antisymm ?_ ?_
  · have := (Int.lt_zpow_iff_log_lt (b := 10) (by norm_num) hq).mp h2
    omega
  · exact (Int.zpow_le_iff_le_log (by norm_num) hq).mp h1

theorem round_eval {q : ℚ} {k : ℤ} (h1 : (k : ℚ) ≤ q + 1 / 2) (h2 : q + 1 / 2 < k + 1) :
    round q = k := by
  rw [round_eq]
  exact Int.floor_eq_iff.mpr ⟨h1, h2⟩

theorem round4sig_eval {x : ℚ} {z k : ℤ} (hx : 0 < x) (h1 : (10 : ℚ) ^ z ≤ x)
    (h2 : x < (10 : ℚ) ^ (z + 1)) (hk : round (x * (10 : ℚ) ^ ((3 : ℤ) - z)) = k) :
    round4sig x = (k : ℚ) / (10 : ℚ) ^ ((3 : ℤ) - z) := by
  rw [round4sig_of_ne x (ne_of_gt hx), abs_of_pos hx, log10_eq hx h1 h2, hk]

theorem round4sig_nonneg {x : ℚ} (hx : 0 ≤ x) : 0 ≤ round4sig x := by
  rcases eq_or_lt_of_le hx with h | h
  · rw [← h, round4sig_zero]
  · rw [round4sig_of_ne x (ne_of_gt h)]
    have hf : (0 : ℚ) < (10 : ℚ) ^ ((3 : ℤ) - Int.log 10 |x|) := zpow_pos (by norm_num) _
    have hq : (0 : ℚ) ≤ x * (10 : ℚ) ^ ((3 : ℤ) - Int.log 10 |x|) :=
      mul_nonneg (le_of_lt h) (le_of_lt hf)
    have hr : (0 : ℤ) ≤ round (x * (10 : ℚ) ^ ((3 : ℤ) - Int.log 10 |x|)) := by
      rw [round_eq]
      exact Int.le_floor.mpr (by push_cast; linarith)
    positivity

theorem round4sig_idem {x : ℚ} (hx : 0 ≤ x) : round4sig (round4sig x) = round4sig x := by
  rcases eq_or_lt_of_le hx with h | h
  · rw [← h, round4sig_zero, round4sig_zero]
  set m := Int.log 10 x with hm
  have hten : ((10 : ℚ)) ≠ 0 := by norm_num
  have h1 : (10 : ℚ) ^ m ≤ x := Int.zpow_log_le_self (by norm_num) h
  have h2 : x < (10 : ℚ) ^ (m + 1) := Int.lt_zpow_succ_log_self (by norm_num) x
  set f : ℚ := (10 : ℚ) ^ ((3 : ℤ) - m) with hf
  have hfpos : (0 : ℚ) < f := zpow_pos (by norm_num) _
  have hprod3 : (10 : ℚ) ^ m * f = 1000 := by
    rw [hf, ← zpow_add₀ hten]
    norm_num
  have hprod4 : (10 : ℚ) ^ (m + 1) * f = 10000 := by
    rw [hf, ← zpow_add₀ hten]
    have : m + 1 + (3 - m) = (4 : ℤ) := by ring
    rw [this]
    norm_num
  have hxf_lo : (1000 : ℚ) ≤ x * f := by
    calc (1000 : ℚ) = (10 : ℚ) ^ m * f := hprod3.symm
    _ ≤ x * f := mul_le_mul_of_nonneg_right h1 (le_of_lt hfpos)
  have hxf_hi : x * f < 10000 := by
    calc x * f < (10 : ℚ) ^ (m + 1) * f :=
      mul_lt_mul_of_pos_right h2 hfpos
    _ = 10000 := hprod4
  set k := round (x * f) with hk
  have hk_lo : (1000 : ℤ) ≤ k := by
    rw [hk, round_eq]
    exact Int.le_floor.mpr (by push_cast; linarith)
  have hk_hi : k ≤ 10000 := by
    rw [hk, round_eq]
    have hlt : (⌊x * f + 1 / 2⌋ : ℤ) < 10001 := Int.floor_lt.mpr (by push_cast; linarith)
    omega
  have hy : round4sig x = (k : ℚ) / f := by
    rw [round4sig_of_ne x (ne_of_gt h), abs_of_pos h, ← hm, ← hf, ← hk]
  by_cases hk4 : k = 10000
  · have hyval : round4sig x = (10 : ℚ) ^ (m + 1) := by
      rw [hy, hk4, eq_comm, eq_div_iff (ne_of_gt hfpos), hprod4]
      norm_num
    have hpos : (0 : ℚ) < (10 : ℚ) ^ (m + 1) := zpow_pos (by norm_num) _
    have hlt : (10 : ℚ) ^ (m + 1) < (10 : ℚ) ^ (m + 1 + 1) :=
      zpow_lt_zpow_right₀ (by norm_num) (by omega)
    have hprod : (10 : ℚ) ^ (m + 1) * (10 : ℚ) ^ ((3 : ℤ) - (m + 1)) = 1000 := by
      rw [← zpow_add₀ hten]
      have h3 : m + 1 + (3 - (m + 1)) = (3 : ℤ) := by ring
      rw [h3]
      norm_num
    have hkr : round ((10 : ℚ) ^ (m + 1) * (10 : ℚ) ^ ((3 : ℤ) - (m + 1))) = (1000 : ℤ) := by
      rw [hprod, show ((1000 : ℚ)) = ((1000 : ℤ) : ℚ) by norm_num, round_intCast]
    have heval := round4sig_eval hpos (le_refl _) hlt hkr
    rw [hyval, heval, div_eq_iff (by positivity)]
    push_cast
    exact hprod.symm
  · have hk_hi9 : k ≤ 9999 := by omega
    have hypos : (0 : ℚ) < (k : ℚ) / f := by
      apply div_pos _ hfpos
      exact_mod_cast (by omega : (0 : ℤ) < k)
    have hylo : (10 : ℚ) ^ m ≤ (k : ℚ) / f := by
      rw [le_div_iff₀ hfpos, hprod3]
      exact_mod_cast hk_lo
    have hyhi : (k : ℚ) / f < (10 : ℚ) ^ (m + 1) := by
      rw [div_lt_iff₀ hfpos, hprod4]
      exact_mod_cast (by omega : k < (10000 : ℤ))
    have hkr : round ((k : ℚ) / f * (10 : ℚ) ^ ((3 : ℤ) - m)) = k := by
      rw [← hf, div_mul_cancel₀ _ (ne_of_gt hfpos), round_intCast]
    calc round4sig (round4sig x) = round4sig ((k : ℚ) / f) := by rw [hy]
    _ = (k : ℚ) / (10 : ℚ) ^ ((3 : ℤ) - m) := round4sig_eval hypos hylo hyhi hkr
    _ = (k : ℚ) / f := by rw [hf]
    _ = round4sig x := hy.symm

theorem round4sig_close {x : ℚ} (hx : 0 < x) : |round4sig x - x| ≤ x / 2000 := by
  set m := Int.log 10 x with hm
  have h1 : (10 : ℚ) ^ m ≤ x := Int.zpow_log_le_self (by norm_num) hx
  set f : ℚ := (10 : ℚ) ^ ((3 : ℤ) - m) with hf
  have hfpos : (0 : ℚ) < f := zpow_pos (by norm_num) _
  have hprod3 : (10 : ℚ) ^ m * f = 1000 := by
    rw [hf, ← zpow_add₀ (by norm_num : ((10 : ℚ)) ≠ 0)]
    norm_num
  have hy : round4sig x = ((round (x * f) : ℤ) : ℚ) / f := by
    rw [round4sig_of_ne x (ne_of_gt hx), abs_of_pos hx, ← hm, ← hf]
  have hdiff : round4sig x - x = (((round (x * f) : ℤ) : ℚ) - x * f) / f := by
    rw [hy]
    field_simp
    ring
  have hnum : |((round (x * f) : ℤ) : ℚ) - x * f| ≤ 1 / 2 := by
    rw [abs_sub_comm]
    exact abs_sub_round (x * f)
  have habs : |round4sig x - x| ≤ (1 / 2) / f := by
    rw [hdiff, abs_div, abs_of_pos hfpos]
    gcongr
  refine habs.trans ?_
  rw [div_le_div_iff₀ hfpos (by norm_num : (0 : ℚ) < 2000)]
  have hge : (1000 : ℚ) ≤ x * f := by
    calc (1000 : ℚ) = (10 : ℚ) ^ m * f := hprod3.symm
    _ ≤ x * f := mul_le_mul_of_nonneg_right h1 (le_of_lt hfpos)
  linarith

theorem roundTrip_close {v p : ℚ} (hv : 0 < v) (hp : 0 < p) :
    |round4sig (round4sig (v * p) / p) - v| ≤ v * (4001 / 4000000) := by
  have hvp : 0 < v * p := mul_pos hv hp
  have hu := round4sig_close hvp
  set u := round4sig (v * p) with hu'
  have hup_sub : |u / p - v| ≤ v / 2000 := by
    have heq : u / p - v = (u - v * p) / p := by
      field_simp
      ring
    rw [heq, abs_div, abs_of_pos hp, div_le_div_iff₀ hp (by norm_num : (0 : ℚ) < 2000)]
    linarith [hu]
  have hb := abs_le.mp hup_sub
  have hup_pos : 0 < u / p := by linarith [hb.1]
  have hw := round4sig_close hup_pos
  have hup_hi : u / p ≤ v + v / 2000 := by linarith [hb.2]
  have htri := abs_sub_le (round4sig (u / p)) (u / p) v
  have hw2 : |round4sig (u / p) - u / p| ≤ (v + v / 2000) / 2000 := by
    refine hw.trans ?_
    gcongr
  calc |round4sig (u / p) - v| ≤ |round4sig (u / p) - u / p| + |u / p - v| := htri
  _ ≤ (v + v / 2000) / 2000 + v / 2000 := add_le_add hw2 hup_sub
  _ = v * (4001 / 4000000) := by ring

/-! ### Concrete evaluations of the formatter -/

theorem round4sig_one : round4sig 1 = 1 := by
  have h := round4sig_eval (x := 1) (z := 0) (k := 1000) (by norm_num) (by norm_num)
    (by norm_num) (round_eval (by norm_num) (by norm_num))
  rw [h]
  norm_num

theorem round4sig_two : round4sig 2 = 2 := by
  have h := round4sig_eval (x := 2) (z := 0) (k := 2000) (by norm_num) (by norm_num)
    (by norm_num) (round_eval (by norm_num) (by norm_num))
  rw [h]
  norm_num

theorem round4sig_ten : round4sig 10 = 10 := by
  have h := round4sig_eval (x := 10) (z := 1) (k := 1000) (by norm_num) (by norm_num)
    (by norm_num) (round_eval (by norm_num) (by norm_num))
  rw [h]
  norm_num

theorem round4sig_third : round4sig ((1 : ℚ) / 3) = 3333 / 10000 := by
  have h := round4sig_eval (x := (1 : ℚ) / 3) (z := -1) (k := 3333) (by norm_num) (by norm_num)
    (by norm_num) (round_eval (by norm_num) (by norm_num))
  rw [h]
  norm_num

theorem round4sig_step1 : round4sig ((3334 : ℚ) / 10000 * 3) = 1 := by
  have h := round4sig_eval (x := (3334 : ℚ) / 10000 * 3) (z := 0) (k := 1000) (by norm_num)
    (by norm_num) (by norm_num) (round_eval (by norm_num) (by norm_num))
  rw [h]
  norm_num

theorem round4sig_fixed3333 : round4sig ((3333 : ℚ) / 10000) = 3333 / 10000 := by
  have h := round4sig_eval (x := (3333 : ℚ) / 10000) (z := -1) (k := 3333) (by norm_num)
    (by norm_num) (by norm_num) (round_eval (by norm_num) (by norm_num))
  rw [h]
  norm_num

theorem round4sig_fixed3334 : round4sig ((3334 : ℚ) / 10000) = 3334 / 10000 := by
  have h := round4sig_eval (x := (3334 : ℚ) / 10000) (z := -1) (k := 3334) (by norm_num)
    (by norm_num) (by norm_num) (round_eval (by norm_num) (by norm_num))
  rw [h]
  norm_num

/-! ### Polling and debounce lemmas -/

theorem pollFrom_count_le (oracle : ℕ → Option Receipt) (attempts fuel : ℕ) :
    (pollFrom oracle attempts fuel).2 ≤ attempts + fuel := by
  induction fuel generalizing attempts with
  | zero => simp [pollFrom]
  | succ n ih =>
    cases h : oracle attempts with
    | some r => simp [pollFrom, h]
    | none =>
      simp only [pollFrom, h]
      calc (pollFrom oracle (attempts + 1) n).2 ≤ attempts + 1 + n := ih (attempts + 1)
      _ = attempts + (n + 1) := by omega

theorem pollFrom_all_none (oracle : ℕ → Option Receipt)
    (h : ∀ n, oracle n = none) (attempts fuel : ℕ) :
    pollFrom oracle attempts fuel = (none, attempts + fuel) := by
  induction fuel generalizing attempts with
  | zero => simp [pollFrom]
  | succ n ih =>
    simp only [pollFrom, h attempts]
    rw [ih (attempts + 1)]
    congr 1
    omega

theorem debounceFires_cons_of_lt {delay : ℕ} {e e2 : Edit} {rest : List Edit}
    (h : e2.time < e.time + delay) :
    debounceFires delay (e :: e2 :: rest) = debounceFires delay (e2 :: rest) := by
  cases hv : e.value with
  | none => simp [debounceFires, hv]
  | some v =>
    simp only [debounceFires, hv]
    rw [if_neg (by omega)]

/-! ### Toggle and mode-effect lemmas -/

theorem toggleFromMode_val (s : SwapState) (a p : ℚ)
    (ha : s.fromAmount = some a) (hp : s.fromPrice = some p) (hpne : p ≠ 0) :
    toggleFromMode s =
      { s with fromMode := flipMode s.fromMode,
               fromAmount := some (if flipMode s.fromMode = Mode.usd then round4sig (a * p)
                                   else round4sig (a / p)) } := by
  cases hm : s.fromMode <;> simp [toggleFromMode, ha, hp, hpne, flipMode, hm]

theorem fromModeConvEffect_after_toggle (s : SwapState) (a p : ℚ)
    (ha : s.fromAmount = some a) (hp : s.fromPrice = some p) (ha0 : 0 ≤ a) (hp0 : 0 < p) :
    fromModeConvEffect (toggleFromMode s) = toggleFromMode s := by
  have hpne : p ≠ 0 := ne_of_gt hp0
  rw [toggleFromMode_val s a p ha hp hpne]
  by_cases hl : s.lastEditedField = Side.fromS
  · cases hm : s.fromMode <;> simp [fromModeConvEffect, flipMode, hp, hpne, hl]
  · cases hm : s.fromMode
    · have hc0 : 0 ≤ a * p := mul_nonneg ha0 (le_of_lt hp0)
      have hidem : round4sig (round4sig (a * p) / p * p) = round4sig (a * p) := by
        rw [div_mul_cancel₀ _ hpne, round4sig_idem hc0]
      simp [fromModeConvEffect, flipMode, hp, hpne, hl, hidem, round4sig_idem hc0]
    · have hc0 : 0 ≤ a / p := div_nonneg ha0 (le_of_lt hp0)
      have hidem : round4sig (round4sig (a / p)) = round4sig (a / p) := round4sig_idem hc0
      simp [fromModeConvEffect, flipMode, hp, hpne, hl, hidem]

/-! ### Claim theorems -/

/-- C5: for every sequence of edits to the from side in which each later
edit occurs strictly before the 200 time-unit debounce delay of the previous
edit elapses, only the last edited value triggers a quote request: every
timer scheduled by an earlier edit is cancelled by the next edit's effect
cleanup, so exactly one request fires, carrying the last value, 200
time-units after the last edit. -/
theorem debounce_only_last_fires (edits : List Edit) (hne : edits ≠ [])
    (hchain : closeChain 200 edits) (hvals : ∀ e ∈ edits, e.value ≠ none) :
    debounceFires 200 edits =
      [((edits.getLast hne).time + 200, ((edits.getLast hne).value).getD 0)] := by
  induction edits with
  | nil => exact absurd rfl hne
  | cons e rest ih =>
    cases rest with
    | nil =>
      have hv := hvals e (by simp)
      cases he : e.value with
      | none => exact absurd he hv
      | some v => simp [debounceFires, he, List.getLast]
    | cons e2 rest2 =>
      obtain ⟨hlt, hchain2⟩ := hchain
      rw [debounceFires_cons_of_lt hlt,
        ih (by simp) hchain2 (fun x hx => hvals x (by simp [hx]))]
      simp [List.getLast_cons_cons]

/-- Witness for C5: three edits 100 and 50 time-units apart produce exactly
one fire, 200 time-units after the last edit, with the last value. -/
theorem debounce_only_last_fires_witness :
    ([⟨0, some 1⟩, ⟨100, some 2⟩, ⟨150, some 3⟩] : List Edit) ≠ [] ∧
    closeChain 200 [⟨0, some 1⟩, ⟨100, some 2⟩, ⟨150, some 3⟩] ∧
    debounceFires 200 [⟨0, some 1⟩, ⟨100, some 2⟩, ⟨150, some 3⟩] = [(350, 3)] := by
  refine ⟨by simp, ⟨by norm_num, by norm_num, trivial⟩, ?_⟩
  have h := debounce_only_last_fires [⟨0, some 1⟩, ⟨100, some 2⟩, ⟨150, some 3⟩]
    (by simp) ⟨by norm_num, by norm_num, trivial⟩ (by intro e he; fin_cases he <;> simp)
  simpa using h

/-- C6: whenever a quote fetch fails with any error message — for either
request side and any parameter token prices — `fetchQuote` leaves the whole
amount state unchanged and raises exactly one typed error notification
whose headline is the classified failure reason; a message reporting
insufficient liquidity gets the distinct insufficient-liquidity headline. -/
theorem quote_failure_atomic (s : SwapState) (fp tp : Option ℚ) (a : ℚ) (b : Bool)
    (msg : String) (ha : 0 < a) :
    (fetchQuote s fp tp (some a) b (Except.error msg)).state = s ∧
    (fetchQuote s fp tp (some a) b (Except.error msg)).notifs =
      [⟨NotifType.error, classifyQuoteError msg⟩] ∧
    (strContains msg "insufficient liquidity" = true →
      classifyQuoteError msg = "Insufficient Liquidity" ∧
      classifyQuoteError msg ≠ "Quote Failed" ∧
      classifyQuoteError msg ≠ "Network Error") := by
  have hna : ¬ a ≤ 0 := not_le.mpr ha
  refine ⟨by simp [fetchQuote, hna], by simp [fetchQuote, hna], fun h => ?_⟩
  simp [classifyQuoteError, h]

/-- Witness for C6: a liquidity-classified failure leaves both amounts
unchanged and raises the distinct insufficient-liquidity notification. -/
theorem quote_failure_atomic_witness :
    (0 : ℚ) < 5 ∧
    ((fetchQuote ⟨some 5, some 7, Mode.token, Mode.token, none, none, Side.fromS⟩
        none none (some 5) true (Except.error "insufficient liquidity")).state =
      ⟨some 5, some 7, Mode.token, Mode.token, none, none, Side.fromS⟩ ∧
    (fetchQuote ⟨some 5, some 7, Mode.token, Mode.token, none, none, Side.fromS⟩
        none none (some 5) true (Except.error "insufficient liquidity")).notifs =
      [⟨NotifType.error, classifyQuoteError "insufficient liquidity"⟩] ∧
    (strContains "insufficient liquidity" "insufficient liquidity" = true →
      classifyQuoteError "insufficient liquidity" = "Insufficient Liquidity" ∧
      classifyQuoteError "insufficient liquidity" ≠ "Quote Failed" ∧
      classifyQuoteError "insufficient liquidity" ≠ "Network Error")) :=
  ⟨by norm_num,
   quote_failure_atomic ⟨some 5, some 7, Mode.token, Mode.token, none, none, Side.fromS⟩
     none none 5 true "insufficient liquidity" (by norm_num)⟩

/-- C7 counterexample: when the balance fetch throws (a total failure),
`getWalletBalances` returns the hard-coded two-token default list — not an
empty list — and raises no notification at all, contradicting the claim
that total failure yields an empty list plus a notification. -/
theorem balances_failure_counterexample :
    (getWalletBalances none BalUpstream.exn).1 ≠ [] ∧
    (getWalletBalances none BalUpstream.exn).2 = [] := by
  constructor
  · simp [getWalletBalances, defaultTokens]
  · rfl

/-- C7 (amended): on total HTTP failure of both endpoints
`getWalletBalances` returns an empty token list; on a thrown exception it
returns the two hard-coded default tokens; in neither case is any
notification raised; the function always returns a value to the caller. -/
theorem balances_failure_fallbacks :
    getWalletBalances none BalUpstream.httpFail = ([], []) ∧
    getWalletBalances none BalUpstream.exn = (defaultTokens, []) ∧
    (getWalletBalances none BalUpstream.exn).1.length = 2 :=
  ⟨rfl, rfl, rfl⟩

/-- C8: receipt polling performs at most 30 attempts; when every poll comes
back empty the flow ends in a terminal `Failed` outcome whose reason is the
status-unknown timeout message, which is distinct from an on-chain revert
(`status 0x0`) and from success — never an unbounded wait. -/
theorem polling_bounded_timeout (oracle : ℕ → Option Receipt) :
    (pollReceipt oracle).2 ≤ 30 ∧
    ((∀ n, oracle n = none) →
      pollReceipt oracle = (none, 30) ∧
      receiptOutcome (pollReceipt oracle).1 =
        SwapOutcome.failed "Transaction failed - Status: unknown" ∧
      receiptOutcome (pollReceipt oracle).1 ≠ SwapOutcome.success ∧
      receiptOutcome (pollReceipt oracle).1 ≠ receiptOutcome (some ⟨"0x0"⟩)) := by
  constructor
  · have h := pollFrom_count_le oracle 0 30
    simpa [pollReceipt] using h
  · intro h
    have hp : pollReceipt oracle = (none, 30) := by
      have := pollFrom_all_none oracle h 0 30
      simpa [pollReceipt] using this
    refine ⟨hp, ?_, ?_, ?_⟩ <;> rw [hp] <;> simp [receiptOutcome]

/-- Witness for C8: with an oracle that never returns a receipt, exactly 30
polls are made and the outcome is the status-unknown timeout failure. -/
theorem polling_bounded_timeout_witness :
    (pollReceipt (fun _ => none)).2 ≤ 30 ∧
    pollReceipt (fun _ => none) = (none, 30) ∧
    receiptOutcome (pollReceipt (fun _ => none)).1 =
      SwapOutcome.failed "Transaction failed - Status: unknown" ∧
    receiptOutcome (pollReceipt (fun _ => none)).1 ≠ receiptOutcome (some ⟨"0x0"⟩) := by
  have h := polling_bounded_timeout (fun _ => none)
  have h2 := h.2 (fun _ => rfl)
  exact ⟨h.1, h2.1, h2.2.1, h2.2.2.2⟩

/-- C9: when the approve transaction is accepted by the wallet,
`approveToken` issues exactly one approve call whose encoded amount word is
exactly the swap amount scaled by the token's decimals (not an unlimited
allowance), and when the polled receipt confirms (`status === '0x1'`) the
swap submission auto-resumes (`executeSwap()` is called) without a second
manual click. -/
theorem approve_exact_amount_resumes (spender : String) (amount : ℚ) (decimals : ℕ)
    (tx : String) (oracle : ℕ → Option Receipt) :
    (approveToken spender amount decimals (Except.ok tx) oracle).calls =
      [⟨"0x095ea7b3", spender, amount * (10 : ℚ) ^ decimals⟩] ∧
    ((pollReceipt oracle).1 = some ⟨"0x1"⟩ →
      (approveToken spender amount decimals (Except.ok tx) oracle).resumedSwap = true) := by
  constructor
  · rcases h : (pollReceipt oracle).1 with _ | r
    · simp [approveToken, h]
    · by_cases hr : r.status = "0x1" <;> simp [approveToken, h, hr]
  · intro h
    simp [approveToken, h]

/-- Witness for C9: approving 3/2 tokens with 6 decimals encodes exactly
1500000 and auto-resumes on a confirmed receipt. -/
theorem approve_exact_amount_resumes_witness :
    (approveToken "0xdead" (3 / 2) 6 (Except.ok "0xhash") (fun _ => some ⟨"0x1"⟩)).calls =
      [⟨"0x095ea7b3", "0xdead", (3 / 2 : ℚ) * (10 : ℚ) ^ (6 : ℕ)⟩] ∧
    (approveToken "0xdead" (3 / 2) 6 (Except.ok "0xhash") (fun _ => some ⟨"0x1"⟩)).resumedSwap
      = true ∧
    ((3 / 2 : ℚ) * (10 : ℚ) ^ (6 : ℕ)) = 1500000 := by
  have h := approve_exact_amount_resumes "0xdead" (3 / 2) 6 "0xhash" (fun _ => some ⟨"0x1"⟩)
  exact ⟨h.1, h.2 rfl, by norm_num⟩

/-- C10: `checkApproval` is fail-closed: any failure of the allowance read
returns `false` rather than throwing, and in `executeSwap` a `false` result
for an ERC-20 input routes the flow into the approval path, never into a
direct swap submission. -/
theorem checkApproval_fail_closed (msg : String) (amount : ℚ) (decimals : ℕ) :
    checkApproval (Except.error msg) amount decimals = false ∧
    executeSwapRouting false (checkApproval (Except.error msg) amount decimals) =
      SwapPath.approvalPath :=
  ⟨rfl, rfl⟩

/-- C1 counterexample: a quote request issued for the from side resolves
while `lastEditedField` is the to side; the response still overwrites the
to side's displayed value (1 becomes 2) — `fetchQuote` contains no
edit-focus or stale-response guard, so the claim as stated is false. -/
theorem stale_quote_counterexample :
    ((⟨some 5, some 1, Mode.token, Mode.token, none, none, Side.toS⟩ :
        SwapState)).lastEditedField = Side.toS ∧
    (fetchQuoteFrom ⟨some 5, some 1, Mode.token, Mode.token, none, none, Side.toS⟩
        (Except.ok ⟨some 2, none⟩)).state.toAmount ≠
      (⟨some 5, some 1, Mode.token, Mode.token, none, none, Side.toS⟩ :
        SwapState).toAmount := by
  refine ⟨rfl, ?_⟩
  have hna : ¬ (5 : ℚ) ≤ 0 := by norm_num
  simp [fetchQuoteFrom, fetchQuote, hna, applyQuoteSuccess, quoteDisplay, round4sig_two]

/-- C1 (amended): a resolving quote response for side A is never ignored —
for every `lastEditedField`, in particular when side B has become the
`editFocus` — side B's displayed value is overwritten with the
quote-derived amount and only side A's own field is left unchanged.  Side B
is rendered in its own state mode, but with the price of the `fetchQuote`
parameter token: for a from-side request that is the to token's price,
while for a to-side request the swapped call site makes it the TO token's
price again (`quoteDisplay s.fromMode s.toPrice` — the from side is priced
with the other token's price). -/
theorem stale_quote_overwrites (s : SwapState) (o : ℚ) (qd : QuoteData)
    (hq : qd.output = some o) :
    (∀ a, s.fromAmount = some a → 0 < a →
      (fetchQuoteFrom s (Except.ok qd)).state.toAmount =
        some (quoteDisplay s.toMode s.toPrice o) ∧
      (fetchQuoteFrom s (Except.ok qd)).state.fromAmount = s.fromAmount) ∧
    (∀ a, s.toAmount = some a → 0 < a →
      (fetchQuoteTo s (Except.ok qd)).state.fromAmount =
        some (quoteDisplay s.fromMode s.toPrice o) ∧
      (fetchQuoteTo s (Except.ok qd)).state.toAmount = s.toAmount) := by
  constructor
  · intro a hamt ha
    have hna : ¬ a ≤ 0 := not_le.mpr ha
    simp [fetchQuoteFrom, fetchQuote, hamt, hq, hna, applyQuoteSuccess]
  · intro a hamt ha
    have hna : ¬ a ≤ 0 := not_le.mpr ha
    simp [fetchQuoteTo, fetchQuote, hamt, hq, hna, applyQuoteSuccess]

/-- Witness for C1's amended theorem: concrete resolutions in both request
directions, with the stale focus on the opposite side each time. -/
theorem stale_quote_overwrites_witness :
    (QuoteData.mk (some 2) none).output = some 2 ∧
    (0 : ℚ) < 5 ∧ (0 : ℚ) < 1 ∧
    ((fetchQuoteFrom ⟨some 5, some 1, Mode.token, Mode.token, none, none, Side.toS⟩
        (Except.ok ⟨some 2, none⟩)).state.toAmount =
      some (quoteDisplay Mode.token none 2) ∧
    (fetchQuoteFrom ⟨some 5, some 1, Mode.token, Mode.token, none, none, Side.toS⟩
        (Except.ok ⟨some 2, none⟩)).state.fromAmount = some 5) ∧
    ((fetchQuoteTo ⟨some 5, some 1, Mode.token, Mode.token, none, none, Side.fromS⟩
        (Except.ok ⟨some 2, none⟩)).state.fromAmount =
      some (quoteDisplay Mode.token none 2) ∧
    (fetchQuoteTo ⟨some 5, some 1, Mode.token, Mode.token, none, none, Side.fromS⟩
        (Except.ok ⟨some 2, none⟩)).state.toAmount = some 1) :=
  ⟨rfl, by norm_num, by norm_num,
   (stale_quote_overwrites ⟨some 5, some 1, Mode.token, Mode.token, none, none, Side.toS⟩
      2 ⟨some 2, none⟩ rfl).1 5 rfl (by norm_num),
   (stale_quote_overwrites ⟨some 5, some 1, Mode.token, Mode.token, none, none, Side.fromS⟩
      2 ⟨some 2, none⟩ rfl).2 1 rfl (by norm_num)⟩

/-- C3 counterexample: with the from side in USD mode and no known unit
price, `fetchQuote` still issues the request — passing the USD value through
unconverted as the token amount — and on a successful response it updates
the opposite side, contradicting the claim that no request is issued. -/
theorem missing_price_counterexample :
    (fetchQuoteFrom ⟨some 5, some 7, Mode.usd, Mode.token, none, none, Side.fromS⟩
        (Except.ok ⟨some 2, none⟩)).requestIssued = true ∧
    (fetchQuoteFrom ⟨some 5, some 7, Mode.usd, Mode.token, none, none, Side.fromS⟩
        (Except.ok ⟨some 2, none⟩)).requestAmount = some 5 ∧
    (fetchQuoteFrom ⟨some 5, some 7, Mode.usd, Mode.token, none, none, Side.fromS⟩
        (Except.ok ⟨some 2, none⟩)).state.toAmount ≠
      (⟨some 5, some 7, Mode.usd, Mode.token, none, none, Side.fromS⟩ :
        SwapState).toAmount := by
  have hna : ¬ (5 : ℚ) ≤ 0 := by norm_num
  refine ⟨?_, ?_, ?_⟩ <;>
    simp [fetchQuoteFrom, fetchQuote, hna, convertEditedAmount, applyQuoteSuccess,
      quoteDisplay, round4sig_two]

/-- C3 (amended): a missing unit price never aborts the quote request; for
a positive amount the request is always issued.  For a from-side edit in
USD mode with the from price absent or zero, the raw USD value is passed
through unconverted.  For a to-side edit in USD mode the conversion never
consults the edited (to) side's own price at all — the swapped call site
makes it check and divide by the FROM token's price: if the from price is
absent or zero the raw USD value is passed through, and if it is a nonzero
`p` the request carries `amount / p`, converted by the other token's
price. -/
theorem missing_price_passthrough (s : SwapState) (resp : Except String QuoteData) :
    (∀ a, s.fromAmount = some a → 0 < a → s.fromMode = Mode.usd →
      (s.fromPrice = none ∨ s.fromPrice = some 0) →
      (fetchQuoteFrom s resp).requestIssued = true ∧
      (fetchQuoteFrom s resp).requestAmount = some a) ∧
    (∀ a, s.toAmount = some a → 0 < a → s.toMode = Mode.usd →
      (s.toPrice = none ∨ s.toPrice = some 0) →
      ((s.fromPrice = none ∨ s.fromPrice = some 0 →
        (fetchQuoteTo s resp).requestIssued = true ∧
        (fetchQuoteTo s resp).requestAmount = some a) ∧
      (∀ p, s.fromPrice = some p → p ≠ 0 →
        (fetchQuoteTo s resp).requestIssued = true ∧
        (fetchQuoteTo s resp).requestAmount = some (a / p)))) := by
  constructor
  · intro a hamt ha hmode hprice
    have hna : ¬ a ≤ 0 := not_le.mpr ha
    have hconv : convertEditedAmount s s.fromPrice s.toPrice a true = a := by
      rcases hprice with h | h <;> simp [convertEditedAmount, h]
    cases resp with
    | error msg => simp [fetchQuoteFrom, fetchQuote, hamt, hna, hconv]
    | ok qd => cases hqo : qd.output <;>
        simp [fetchQuoteFrom, fetchQuote, hamt, hna, hconv, hqo]
  · intro a hamt ha hmode hprice
    have hna : ¬ a ≤ 0 := not_le.mpr ha
    constructor
    · intro hfp
      have hconv : convertEditedAmount s s.toPrice s.fromPrice a false = a := by
        rcases hfp with h | h <;> simp [convertEditedAmount, h]
      cases resp with
      | error msg => simp [fetchQuoteTo, fetchQuote, hamt, hna, hconv]
      | ok qd => cases hqo : qd.output <;>
          simp [fetchQuoteTo, fetchQuote, hamt, hna, hconv, hqo]
    · intro p hfp hpne
      have hconv : convertEditedAmount s s.toPrice s.fromPrice a false = a / p := by
        simp [convertEditedAmount, hfp, hmode, hpne]
      cases resp with
      | error msg => simp [fetchQuoteTo, fetchQuote, hamt, hna, hconv]
      | ok qd => cases hqo : qd.output <;>
          simp [fetchQuoteTo, fetchQuote, hamt, hna, hconv, hqo]

/-- Witness for C3's amended theorem: a from-side edit with zero price
passes 5 through; a to-side edit with its own price missing passes 7
through when the from price is falsy, and carries 7/2 when the from token's
price is 2. -/
theorem missing_price_passthrough_witness :
    (0 : ℚ) < 5 ∧ (0 : ℚ) < 7 ∧ (2 : ℚ) ≠ 0 ∧
    ((fetchQuoteFrom ⟨some 5, some 7, Mode.usd, Mode.usd, some 0, none, Side.fromS⟩
        (Except.ok ⟨some 2, none⟩)).requestIssued = true ∧
    (fetchQuoteFrom ⟨some 5, some 7, Mode.usd, Mode.usd, some 0, none, Side.fromS⟩
        (Except.ok ⟨some 2, none⟩)).requestAmount = some 5) ∧
    ((fetchQuoteTo ⟨some 5, some 7, Mode.usd, Mode.usd, some 0, none, Side.toS⟩
        (Except.ok ⟨some 2, none⟩)).requestIssued = true ∧
    (fetchQuoteTo ⟨some 5, some 7, Mode.usd, Mode.usd, some 0, none, Side.toS⟩
        (Except.ok ⟨some 2, none⟩)).requestAmount = some 7) ∧
    ((fetchQuoteTo ⟨some 5, some 7, Mode.usd, Mode.usd, some 2, none, Side.toS⟩
        (Except.ok ⟨some 2, none⟩)).requestIssued = true ∧
    (fetchQuoteTo ⟨some 5, some 7, Mode.usd, Mode.usd, some 2, none, Side.toS⟩
        (Except.ok ⟨some 2, none⟩)).requestAmount = some ((7 : ℚ) / 2)) :=
  ⟨by norm_num, by norm_num, by norm_num,
   (missing_price_passthrough
      ⟨some 5, some 7, Mode.usd, Mode.usd, some 0, none, Side.fromS⟩
      (Except.ok ⟨some 2, none⟩)).1 5 rfl (by norm_num) rfl (Or.inr rfl),
   ((missing_price_passthrough
      ⟨some 5, some 7, Mode.usd, Mode.usd, some 0, none, Side.toS⟩
      (Except.ok ⟨some 2, none⟩)).2 7 rfl (by norm_num) rfl (Or.inl rfl)).1 (Or.inr rfl),
   ((missing_price_passthrough
      ⟨some 5, some 7, Mode.usd, Mode.usd, some 2, none, Side.toS⟩
      (Except.ok ⟨some 2, none⟩)).2 7 rfl (by norm_num) rfl (Or.inl rfl)).2 2 rfl
     (by norm_num)⟩

/-- C2 counterexample: when the toggled side is not the `editFocus`, the
inline toggle conversion fires (5 tokens at price 2 become a displayed 10
USD) and the mode-reactive effect's guard also passes on the committed
state, so both fire for the same mode change — the claimed mutual
exclusivity does not hold. -/
theorem toggle_both_fire_counterexample :
    (toggleFromMode ⟨some 5, none, Mode.token, Mode.token, some 2, none, Side.toS⟩).fromAmount
      ≠ (⟨some 5, none, Mode.token, Mode.token, some 2, none, Side.toS⟩ :
          SwapState).fromAmount ∧
    fromModeEffectFires
      (toggleFromMode ⟨some 5, none, Mode.token, Mode.token, some 2, none, Side.toS⟩) = true := by
  have h : (5 : ℚ) * 2 = 10 := by norm_num
  constructor
  · simp [toggleFromMode, flipMode, h, round4sig_ten]
  · simp [toggleFromMode, flipMode, fromModeEffectFires]

/-- C2 (amended): per mode toggle on a side holding a non-empty amount with
a known positive unit price, the displayed value undergoes exactly one
token↔USD conversion.  The mode-reactive effect is not mutually exclusive
with the inline toggle conversion — it also runs when the side is not the
`editFocus` — but on the committed post-toggle state its recomputation
reproduces the same 4-significant-figure display, so it never applies a
second conversion and the value is never double-converted. -/
theorem toggle_single_conversion (s : SwapState) (a p : ℚ)
    (ha : s.fromAmount = some a) (hp : s.fromPrice = some p) (ha0 : 0 ≤ a) (hp0 : 0 < p) :
    fromModeConvEffect (toggleFromMode s) = toggleFromMode s ∧
    (toggleFromMode s).fromAmount =
      some (if flipMode s.fromMode = Mode.usd then round4sig (a * p)
            else round4sig (a / p)) := by
  refine ⟨fromModeConvEffect_after_toggle s a p ha hp ha0 hp0, ?_⟩
  rw [toggleFromMode_val s a p ha hp (ne_of_gt hp0)]

/-- Witness for C2's amended theorem at a concrete toggle. -/
theorem toggle_single_conversion_witness :
    (⟨some 5, none, Mode.token, Mode.token, some 2, none, Side.toS⟩ :
        SwapState).fromAmount = some 5 ∧
    (⟨some 5, none, Mode.token, Mode.token, some 2, none, Side.toS⟩ :
        SwapState).fromPrice = some 2 ∧
    (0 : ℚ) ≤ 5 ∧ (0 : ℚ) < 2 ∧
    (fromModeConvEffect
        (toggleFromMode ⟨some 5, none, Mode.token, Mode.token, some 2, none, Side.toS⟩) =
      toggleFromMode ⟨some 5, none, Mode.token, Mode.token, some 2, none, Side.toS⟩ ∧
    (toggleFromMode ⟨some 5, none, Mode.token, Mode.token, some 2, none, Side.toS⟩).fromAmount =
      some (if flipMode Mode.token = Mode.usd then round4sig ((5 : ℚ) * 2)
            else round4sig ((5 : ℚ) / 2))) :=
  ⟨rfl, rfl, by norm_num, by norm_num,
   toggle_single_conversion ⟨some 5, none, Mode.token, Mode.token, some 2, none, Side.toS⟩
     5 2 rfl rfl (by norm_num) (by norm_num)⟩

/-- C4 counterexample: the value 0.3334 is already exactly 4 significant
figures, yet toggling token→USD→token at unit price 3 (with the
mode-reactive effect running after each toggle) yields 0.3333 ≠ 0.3334: the
round trip does not reproduce the original value even up to
4-significant-figure rounding of the input. -/
theorem roundtrip_counterexample :
    round4sig ((3334 : ℚ) / 10000) = (3334 : ℚ) / 10000 ∧
    (fromModeConvEffect (toggleFromMode (fromModeConvEffect (toggleFromMode
        (⟨some ((3334 : ℚ) / 10000), none, Mode.token, Mode.token, some 3, none,
          Side.toS⟩ : SwapState))))).fromAmount = some ((3333 : ℚ) / 10000) ∧
    ((3333 : ℚ) / 10000) ≠ (3334 : ℚ) / 10000 := by
  refine ⟨round4sig_fixed3334, ?_, by norm_num⟩
  have h1 : toggleFromMode
      (⟨some ((3334 : ℚ) / 10000), none, Mode.token, Mode.token, some 3, none,
        Side.toS⟩ : SwapState) =
      ⟨some 1, none, Mode.usd, Mode.token, some 3, none, Side.toS⟩ := by
    simp [toggleFromMode, flipMode, round4sig_step1]
  have h2 : fromModeConvEffect
      (⟨some 1, none, Mode.usd, Mode.token, some 3, none, Side.toS⟩ : SwapState) =
      ⟨some 1, none, Mode.usd, Mode.token, some 3, none, Side.toS⟩ := by
    have hcur : (1 : ℚ) / 3 * 3 = 1 := by norm_num
    simp [fromModeConvEffect, hcur, round4sig_one]
  have h3 : toggleFromMode
      (⟨some 1, none, Mode.usd, Mode.token, some 3, none, Side.toS⟩ : SwapState) =
      ⟨some ((3333 : ℚ) / 10000), none, Mode.token, Mode.token, some 3, none,
        Side.toS⟩ := by
    have hinv : round4sig ((3 : ℚ)⁻¹) = 3333 / 10000 := by
      rw [show ((3 : ℚ))⁻¹ = 1 / 3 by norm_num]
      exact round4sig_third
    simp [toggleFromMode, flipMode, hinv]
  have h4 : fromModeConvEffect
      (⟨some ((3333 : ℚ) / 10000), none, Mode.token, Mode.token, some 3, none,
        Side.toS⟩ : SwapState) =
      ⟨some ((3333 : ℚ) / 10000), none, Mode.token, Mode.token, some 3, none,
        Side.toS⟩ := by
    simp [fromModeConvEffect, round4sig_fixed3333]
  rw [h1, h2, h3, h4]

/-- C4 (amended): for a from side in token mode holding value `v > 0` with
unit price `p > 0`, toggling token→USD→token (each toggle followed by the
mode-reactive effect on the committed state) returns the side to token mode
with displayed value `round4sig (round4sig (v·p) / p)`, which differs from
`v` by a relative error of at most 4001/4000000 (about one part in a
thousand, i.e. a few units in the 4th significant figure) — stable at the
formatter's precision scale, though not exactly reproducing `v`. -/
theorem roundtrip_within_bound (s : SwapState) (v p : ℚ)
    (ha : s.fromAmount = some v) (hm : s.fromMode = Mode.token)
    (hp : s.fromPrice = some p) (hv : 0 < v) (hp0 : 0 < p) :
    (fromModeConvEffect (toggleFromMode (fromModeConvEffect (toggleFromMode s)))).fromAmount =
      some (round4sig (round4sig (v * p) / p)) ∧
    (fromModeConvEffect (toggleFromMode (fromModeConvEffect (toggleFromMode s)))).fromMode =
      Mode.token ∧
    |round4sig (round4sig (v * p) / p) - v| ≤ v * (4001 / 4000000) := by
  have hpne : p ≠ 0 := ne_of_gt hp0
  have h2 : fromModeConvEffect (toggleFromMode s) = toggleFromMode s :=
    fromModeConvEffect_after_toggle s v p ha hp (le_of_lt hv) hp0
  have h1 : toggleFromMode s =
      { s with fromMode := flipMode s.fromMode,
               fromAmount := some (if flipMode s.fromMode = Mode.usd then round4sig (v * p)
                                   else round4sig (v / p)) } :=
    toggleFromMode_val s v p ha hp hpne
  have hmode1 : (toggleFromMode s).fromMode = Mode.usd := by rw [h1, hm]; rfl
  have hamt1 : (toggleFromMode s).fromAmount = some (round4sig (v * p)) := by
    rw [h1, hm]
    simp [flipMode]
  have hprice1 : (toggleFromMode s).fromPrice = some p := by rw [h1]; exact hp
  have hu0 : 0 ≤ round4sig (v * p) :=
    round4sig_nonneg (mul_nonneg (le_of_lt hv) (le_of_lt hp0))
  have h4 : fromModeConvEffect (toggleFromMode (toggleFromMode s)) =
      toggleFromMode (toggleFromMode s) :=
    fromModeConvEffect_after_toggle (toggleFromMode s) (round4sig (v * p)) p hamt1 hprice1
      hu0 hp0
  have h3 : toggleFromMode (toggleFromMode s) =
      { toggleFromMode s with
          fromMode := flipMode (toggleFromMode s).fromMode,
          fromAmount := some (if flipMode (toggleFromMode s).fromMode = Mode.usd then
                                round4sig (round4sig (v * p) * p)
                              else round4sig (round4sig (v * p) / p)) } :=
    toggleFromMode_val (toggleFromMode s) (round4sig (v * p)) p hamt1 hprice1 hpne
  rw [h2, h4, h3, hmode1]
  refine ⟨by simp [flipMode], by simp [flipMode], roundTrip_close hv hp0⟩

/-- Witness for C4's amended theorem at `v = 1`, `p = 1`. -/
theorem roundtrip_within_bound_witness :
    (⟨some 1, none, Mode.token, Mode.token, some 1, none, Side.toS⟩ :
        SwapState).fromAmount = some 1 ∧
    (0 : ℚ) < 1 ∧
    ((fromModeConvEffect (toggleFromMode (fromModeConvEffect (toggleFromMode
        (⟨some 1, none, Mode.token, Mode.token, some 1, none, Side.toS⟩ :
          SwapState))))).fromAmount =
      some (round4sig (round4sig ((1 : ℚ) * 1) / 1)) ∧
    (fromModeConvEffect (toggleFromMode (fromModeConvEffect (toggleFromMode
        (⟨some 1, none, Mode.token, Mode.token, some 1, none, Side.toS⟩ :
          SwapState))))).fromMode = Mode.token ∧
    |round4sig (round4sig ((1 : ℚ) * 1) / 1) - 1| ≤ 1 * (4001 / 4000000)) :=
  ⟨rfl, by norm_num,
   roundtrip_within_bound ⟨some 1, none, Mode.token, Mode.token, some 1, none, Side.toS⟩
     1 1 rfl rfl rfl (by norm_num) (by norm_num)⟩
